import Mathlib

/-!
Verification of `django-admin-actions` (files `admin_actions/admin.py`,
`admin_actions/utils.py`) against its natural-language specification.

The development shallowly embeds the repository's logic:

* the `action` decorator and its `inner` wrapper (redirect normalisation,
  success messages, display-name computation);
* the `ActionsModelAdmin.__init__` bucket registry built with
  `self._actions_row += (func,)` on class-level tuple defaults;
* `_get_visible_actions` (visibility resolver) and the built-in
  predicates `always_visible` / `hide_in_prod`;
* `get_urls` / `_generate_urls_for` / `_get_url_name` (route generation)
  together with a model of the framework's URL reversal on the generated
  path templates;
* `_confirmation_view` (two-step confirmation-form flow).

Framework primitives (HTTP responses, Django forms, `reverse`, message
storage) are modelled abstractly: a response is an opaque value, the
message framework is a list of emitted strings, a form class is a record
of `bind` / `unbound` / `is_valid`.
-/

namespace AdminActions

/-! ## Python value model for the `pk` argument

`inner(self, request, pk=None, ...)` receives `pk` either from the URL
resolver (an `int`, via `<int:pk>`), as an explicit argument of any type,
or not at all (Python `None` default).  The branch `if pk:` tests Python
truthiness, so we model the possible `pk` values together with their
truthiness: `None` is falsy, an int is truthy iff nonzero, a string is
truthy iff nonempty. -/

inductive PyPk where
  | none : PyPk
  | int (n : Int) : PyPk
  | str (s : String) : PyPk
deriving DecidableEq, Repr

def PyPk.truthy : PyPk → Bool
  | .none => false
  | .int n => n != 0
  | .str s => !s.isEmpty

/-! ## Redirect targets (`utils.py`)

`get_object_url(model, pk)` reverses the admin change route of `model`
at `pk`; `redirect_to_list_view(admin)` redirects to the changelist
route of the admin's model.  Reversal itself is framework machinery, so
a target is modelled symbolically by which helper produced it and with
which arguments. -/

inductive Target where
  | objectUrl (model : String) (pk : PyPk) : Target
  | listView (model : String) : Target
deriving DecidableEq, Repr

/-- The value returned by the wrapped action: either the original
method's explicit `HttpResponseBase` (returned unchanged) or an
`HttpResponseRedirect` to a computed target. -/
inductive InnerResult (α : Type) where
  | explicit (r : α) : InnerResult α
  | redirect (t : Target) : InnerResult α
deriving DecidableEq, Repr

/-- `ActionsModelAdmin.generate_action_message` (admin.py:333-336):
the message text passed to `message_user`. -/
def generate_action_message (short_description : String) : String :=
  "Action \"" ++ short_description ++ "\" successfully executed"

/-- Result of one invocation of the wrapper: the messages recorded via
`message_user` during the call, and the returned response. -/
structure InnerOutcome (α : Type) where
  messages : List String
  response : InnerResult α
deriving DecidableEq, Repr

/-- The `inner` wrapper produced by the `action` decorator
(admin.py:131-143).  `f req pk = some r` models the original method
returning an `HttpResponseBase` instance `r`; `none` models any other
return value (including Python `None`), which fails the `isinstance`
check and falls through to the redirect logic.  `model` stands for
`self.model`, used by both redirect helpers. -/
def inner {ρ α : Type} (model : String) (show_message : Bool)
    (short_description : String) (f : ρ → PyPk → Option α)
    (request : ρ) (pk : PyPk) : InnerOutcome α :=
  let result := f request pk
  let messages : List String :=
    if show_message then [generate_action_message short_description] else []
  match result with
  | some r => ⟨messages, .explicit r⟩
  | Option.none =>
      if pk.truthy then ⟨messages, .redirect (.objectUrl model pk)⟩
      else ⟨messages, .redirect (.listView model)⟩

/-! ## Display name (`action` decorator, admin.py:128 and 146)

`readable_name = f.__name__.capitalize().replace("_", " ")` and
`inner.short_description = name or readable_name`.  Python's
`str.capitalize` uppercases the first character and lowercases the
rest; `str.replace("_", " ")` is a character-wise substitution; `or`
selects `readable_name` whenever `name` is falsy (`None` or `""`). -/

def pyCapitalize (s : String) : String :=
  match s.data with
  | [] => ""
  | c :: cs => ⟨c.toUpper :: cs.map Char.toLower⟩

def pyReplaceChar (a b : Char) (s : String) : String :=
  ⟨s.data.map fun c => if c = a then b else c⟩

def readable_name (fname : String) : String :=
  pyReplaceChar '_' ' ' (pyCapitalize fname)

def short_description (name : Option String) (fname : String) : String :=
  match name with
  | some s => if s = "" then readable_name fname else s
  | Option.none => readable_name fname

/-! ## Action registry (`ActionsModelAdmin.__init__`, admin.py:170-183)

The class declares tuple defaults
`_actions_row = () ; _actions_list = () ; _actions_detail = ()` and
`__init__` runs, for every member satisfying `isaction` (in the
alphabetical order produced by `inspect.getmembers`, one entry per
method name):

    if func.__is_row:    self._actions_row  += (func,)
    if func.__is_list:   self._actions_list += (func,)
    if func.__is_detail: self._actions_detail += (func,)

Tuples are immutable, so `self.x += (func,)` desugars to
`self.x = self.x + (func,)`: the read resolves through the instance
attribute falling back to the class attribute, and the write always
binds an instance attribute.  The embedding keeps the two attribute
levels explicit: class attributes are plain lists, instance attributes
are `Option` lists (`none` = attribute absent on the instance). -/

structure ActionFlags where
  fname : String
  is_row : Bool
  is_list : Bool
  is_detail : Bool
deriving DecidableEq, Repr

structure ClassAttrs where
  actions_row : List ActionFlags
  actions_list : List ActionFlags
  actions_detail : List ActionFlags
deriving DecidableEq, Repr

structure InstanceAttrs where
  actions_row : Option (List ActionFlags)
  actions_list : Option (List ActionFlags)
  actions_detail : Option (List ActionFlags)
deriving DecidableEq, Repr

/-- Python attribute lookup on the instance: the instance attribute if
bound, otherwise the class attribute. -/
def lookup_attr (cls : List ActionFlags) (inst : Option (List ActionFlags)) :
    List ActionFlags :=
  inst.getD cls

/-- One loop iteration of `__init__` for member `func`: each `+=` reads
through `lookup_attr` and rebinds the instance attribute; class
attributes are not written. -/
def init_step (cls : ClassAttrs) (inst : InstanceAttrs) (func : ActionFlags) :
    InstanceAttrs :=
  ⟨if func.is_row then
      some (lookup_attr cls.actions_row inst.actions_row ++ [func])
    else inst.actions_row,
   if func.is_list then
      some (lookup_attr cls.actions_list inst.actions_list ++ [func])
    else inst.actions_list,
   if func.is_detail then
      some (lookup_attr cls.actions_detail inst.actions_detail ++ [func])
    else inst.actions_detail⟩

/-- The whole `__init__` scan, starting from a fresh instance with no
instance attributes, over `members` = the decorated methods found by
`inspect.getmembers(self, predicate=isaction)` (each method once, in
scan order). -/
def init_run (cls : ClassAttrs) (members : List ActionFlags) : InstanceAttrs :=
  members.foldl (init_step cls) ⟨Option.none, Option.none, Option.none⟩

/-- The tuple defaults on `ActionsModelAdmin` itself, inherited by any
subclass that does not override them. -/
def defaultClassAttrs : ClassAttrs := ⟨[], [], []⟩

/-- A world of one admin class and its constructed instances, used to
state that constructing one instance touches neither the class
attributes nor previously constructed instances. -/
structure AdminWorld where
  cls : ClassAttrs
  instances : List InstanceAttrs
deriving DecidableEq, Repr

/-- `ActionsModelAdmin(...)`: runs `__init__` against the class
attributes and adds the resulting instance state to the world. -/
def construct_instance (members : List ActionFlags) (w : AdminWorld) :
    AdminWorld :=
  ⟨w.cls, w.instances ++ [init_run w.cls members]⟩

/-! ## Visibility resolver (`_get_visible_actions`, admin.py:209-220)

    obj = getattr(self, "object", None)
    if not hasattr(self, "request") or check_instance and obj is None:
        return actions
    return [func for func in actions
            if func.__visible(view=self, request=self.request, obj=obj)]

`getattr(self, "object", None)` collapses "attribute absent" and `None`,
so the bound object is an `Option`; `hasattr(self, "request")` makes the
bound request an `Option` as well. -/

structure VisAction (View Req Obj : Type) where
  fname : String
  visible : View → Req → Option Obj → Bool

structure ViewState (Req Obj : Type) where
  request : Option Req
  object : Option Obj

def _get_visible_actions {View Req Obj : Type} (view : View)
    (st : ViewState Req Obj) (actions : List (VisAction View Req Obj))
    (check_instance : Bool) : List (VisAction View Req Obj) :=
  match st.request with
  | Option.none => actions
  | some req =>
      if check_instance && st.object.isNone then actions
      else actions.filter fun func => func.visible view req st.object

/-- Process-wide configuration read by `hide_in_prod`
(`settings.APPLICATION_ENVIRONMENT.is_production`). -/
structure Settings where
  is_production : Bool
deriving DecidableEq, Repr

/-- `always_visible(**kwargs)` (admin.py:37-38). -/
def always_visible {View Req Obj : Type}
    (_view : View) (_req : Req) (_obj : Option Obj) : Bool :=
  true

/-- `hide_in_prod(**kwargs)` (admin.py:41-42). -/
def hide_in_prod (s : Settings) : Bool :=
  !s.is_production

/-! ## URL generation (`get_urls` and helpers, admin.py:338-379)

`_get_url_name` builds `"%s_%s_%s" % (app_label, model_name, method)`.
`_generate_urls_for` builds, per method name, the path string
`method_name` plus `"/<int:pk>/"` when `detail`, registered under that
route name.  `get_urls` routes the set union
`set(actions_row) | set(actions_detail)` with `detail=True` and
`actions_list` with `detail=False` (the framework's own admin urls,
appended last, are out of scope).  The set union is modelled as a
deduplicated list; Python's set iteration order is arbitrary and no
claim depends on it. -/

structure UrlPattern where
  url_path : String
  url_name : String
deriving DecidableEq, Repr

def _get_url_name (app_label model_name method_name : String) : String :=
  app_label ++ "_" ++ model_name ++ "_" ++ method_name

def make_url (app_label model_name : String) (detail : Bool)
    (method_name : String) : UrlPattern :=
  ⟨if detail then method_name ++ "/<int:pk>/" else method_name,
   _get_url_name app_label model_name method_name⟩

def _generate_urls_for (app_label model_name : String)
    (method_names : List String) (detail : Bool) : List UrlPattern :=
  method_names.map (make_url app_label model_name detail)

def get_urls (app_label model_name : String)
    (actions_row actions_detail actions_list : List String) :
    List UrlPattern :=
  _generate_urls_for app_label model_name
      ((actions_row ++ actions_detail).dedup) true
    ++ _generate_urls_for app_label model_name actions_list false

/-! ## URL reversal model

The framework reverses a generated route by substituting the supplied
argument for the `<int:pk>` converter in the path template.  The
substitution is modelled character-wise with explicit fuel (one unit per
consumed character, so `l.length` fuel always suffices). -/

def pkConverter : List Char := ['<', 'i', 'n', 't', ':', 'p', 'k', '>']

def substAux (pat rep : List Char) : Nat → List Char → List Char
  | _, [] => []
  | 0, l => l
  | fuel + 1, c :: cs =>
      if pat.isPrefixOf (c :: cs) then
        rep ++ substAux pat rep fuel (cs.drop (pat.length - 1))
      else
        c :: substAux pat rep fuel cs

/-- Django `reverse` on a generated pattern, with the numeric object id
as positional argument. -/
def reverse_url (p : UrlPattern) (pk : Nat) : String :=
  ⟨substAux pkConverter (toString pk).data p.url_path.data.length p.url_path.data⟩

/-! ## Confirmation-form flow (`_confirmation_view`, admin.py:292-331)

    form = None
    ...
    if "apply" in request.POST:
        form = form_cls(request.POST)
        if form.is_valid():
            return form_valid_callback(request, form, obj)
    if not form:
        form = form_cls()
    return render(request, html_template_path, context={..., "form": form, ...})

A Django `Form` instance defines neither `__bool__` nor `__len__`, so a
bound form is always truthy: `if not form` holds exactly when no form
was bound, i.e. when `"apply"` was absent.  The embedding additionally
returns the list of callback invocations (argument triples) so that
"invoked exactly once" is a statement about the result. -/

structure PostData (Val : Type) where
  entries : List (String × Val)

/-- `key in request.POST`. -/
def PostData.hasKey {Val : Type} (p : PostData Val) (k : String) : Bool :=
  p.entries.any fun e => e.1 == k

/-- A form class: construction from POST data, construction with no
data, and validation. -/
structure FormCls (Val Form : Type) where
  bind : PostData Val → Form
  unbound : Form
  is_valid : Form → Bool

/-- The view's outcome: either `render(...)` of the template with the
given form in the context, or the callback's return value propagated
unchanged. -/
inductive ConfResult (Form Resp : Type) where
  | rendered (form : Form) : ConfResult Form Resp
  | callbackResult (r : Resp) : ConfResult Form Resp

def _confirmation_view {Val Form Req Obj Resp : Type}
    (form_cls : FormCls Val Form) (form_valid_callback : Req → Form → Obj → Resp)
    (request : Req) (post : PostData Val) (obj : Obj) :
    ConfResult Form Resp × List (Req × Form × Obj) :=
  if post.hasKey "apply" then
    let form := form_cls.bind post
    if form_cls.is_valid form then
      (.callbackResult (form_valid_callback request form obj),
       [(request, form, obj)])
    else
      (.rendered form, [])
  else
    (.rendered form_cls.unbound, [])

/-! ## Concrete sanity checks -/

example : readable_name "do_thing" = "Do thing" := by decide
example : short_description (some "Decline") "do_thing" = "Decline" := by decide
example : short_description Option.none "hideAll_x" = "Hideall x" := by decide
example :
    (inner "m" true "A" (fun (_ : Unit) _ => (Option.none : Option Unit)) () (.int 0)).response
      = .redirect (.listView "m") := by decide
example :
    (inner "m" true "A" (fun (_ : Unit) _ => (Option.none : Option Unit)) () (.int 7)).response
      = .redirect (.objectUrl "m" (.int 7)) := by decide

example : reverse_url (make_url "app" "mod" true "cancel") 5 = "cancel/5/" := by decide

example :
    get_urls "app" "mod" ["cancel"] ["cancel"] ["fill"]
      = [⟨"cancel/<int:pk>/", "app_mod_cancel"⟩, ⟨"fill", "app_mod_fill"⟩] := by decide

example :
    lookup_attr [] (init_run defaultClassAttrs
        [⟨"a", true, false, true⟩, ⟨"b", false, true, false⟩]).actions_row
      = [⟨"a", true, false, true⟩] := by decide

/-! ## Claim C1 -/

/-- C1 counterexample: the claim as stated fails at a supplied but falsy
primary key.  With the original method returning no explicit response
and `pk = 0` supplied, the wrapper redirects to the list view, not to
the detail URL of the object with primary key 0. -/
theorem C1_counterexample :
    ¬ (inner "m" true "A" (fun (_ : Unit) _ => (Option.none : Option Unit)) ()
          (.int 0)).response
        = .redirect (.objectUrl "m" (.int 0)) := by
  decide

/-- C1 (amended): for every wrapped action, if the original method
returns an explicit framework response object, the wrapper returns it
unchanged; otherwise, if a truthy primary key was supplied, the wrapper
redirects to the detail URL of the object with that primary key, and if
no primary key or a falsy one was supplied, it redirects to the list
view. -/
theorem C1_theorem {ρ α : Type} (model : String) (show_message : Bool)
    (sd : String) (f : ρ → PyPk → Option α) (request : ρ) (pk : PyPk) :
    (∀ r, f request pk = some r →
        (inner model show_message sd f request pk).response = .explicit r)
    ∧ (f request pk = Option.none → pk.truthy = true →
        (inner model show_message sd f request pk).response
          = .redirect (.objectUrl model pk))
    ∧ (f request pk = Option.none → pk.truthy = false →
        (inner model show_message sd f request pk).response
          = .redirect (.listView model)) := by
  refine ⟨fun r hr => ?_, fun hn ht => ?_, fun hn ht => ?_⟩
  · simp [inner, hr]
  · simp [inner, hn, ht]
  · simp [inner, hn, ht]

/-- C1 witness: the amended claim applied at a concrete truthy key. -/
theorem C1_witness :
    (inner "m" true "A" (fun (_ : Unit) _ => (Option.none : Option Unit)) ()
        (.int 5)).response
      = .redirect (.objectUrl "m" (.int 5)) :=
  ( C1_theorem "m" true "A" (fun _ _ => Option.none) () (.int 5)).2.1 rfl rfl

/-! ## Claim C9 -/

/-- C9: the wrapper distinguishes the redirect targets by the truthiness
of the primary-key argument, not its presence: whenever the original
method returns no explicit response and the supplied `pk` is falsy
(`None`, `0`, `""`, ...), the wrapper redirects to the list view. -/
theorem C9_theorem {ρ α : Type} (model : String) (show_message : Bool)
    (sd : String) (f : ρ → PyPk → Option α) (request : ρ) (pk : PyPk)
    (hfalsy : pk.truthy = false) (hres : f request pk = Option.none) :
    (inner model show_message sd f request pk).response
      = .redirect (.listView model) := by
  simp [inner, hres, hfalsy]

/-- C9 witness: the falsy keys `0`, `""` and the `None` default all
redirect to the list view. -/
theorem C9_witness :
    (inner "m" true "A" (fun (_ : Unit) _ => (Option.none : Option Unit)) ()
        (.int 0)).response = .redirect (.listView "m")
    ∧ (inner "m" true "A" (fun (_ : Unit) _ => (Option.none : Option Unit)) ()
        (.str "")).response = .redirect (.listView "m")
    ∧ (inner "m" true "A" (fun (_ : Unit) _ => (Option.none : Option Unit)) ()
        .none).response = .redirect (.listView "m") :=
  ⟨ C9_theorem "m" true "A" (fun _ _ => Option.none) () (.int 0) rfl rfl,
   C9_theorem "m" true "A" (fun _ _ => Option.none) () (.str "") rfl rfl,
   C9_theorem "m" true "A" (fun _ _ => Option.none) () .none rfl rfl⟩

/-! ## Claim C6 -/

/-- C6: for every wrapped action invocation, if `show_message` is false
no notification is recorded; with the default (`show_message=True`)
exactly one notification is recorded, whose text is
`Action "<display name>" successfully executed` and hence contains the
action's display name. -/
theorem C6_theorem {ρ α : Type} (model sd : String) (f : ρ → PyPk → Option α)
    (request : ρ) (pk : PyPk) :
    (inner model false sd f request pk).messages = []
    ∧ (inner model true sd f request pk).messages
        = [generate_action_message sd]
    ∧ generate_action_message sd
        = "Action \"" ++ sd ++ "\" successfully executed"
    ∧ ∃ pre post, generate_action_message sd = pre ++ sd ++ post := by
  refine ⟨?_, ?_, rfl, "Action \"", "\" successfully executed", rfl⟩ <;>
    cases h : f request pk <;> cases ht : pk.truthy <;> simp [inner, h, ht]

/-! ## Claim C8 -/

/-- C8 counterexample: the display name does not always equal a provided
`name` argument — the empty string is a provided name, yet the display
name falls back to the humanized method identifier. -/
theorem C8_counterexample :
    short_description (some "") "do_thing" = "Do thing"
    ∧ ¬ short_description (some "") "do_thing" = "" := by
  decide

/-- C8 (amended): the display name equals the `name` argument when a
non-empty one is provided; otherwise (no `name`, or `name` empty) it is
the humanized method identifier: first character uppercased, remaining
characters lowercased, every underscore replaced by a space. -/
theorem C8_theorem (fname s : String) :
    (¬ s = "" → short_description (some s) fname = s)
    ∧ short_description Option.none fname = readable_name fname
    ∧ short_description (some "") fname = readable_name fname
    ∧ (∀ c cs, fname.data = c :: cs →
        (readable_name fname).data
          = (c.toUpper :: cs.map Char.toLower).map
              fun d => if d = '_' then ' ' else d)
    ∧ (fname.data = [] → readable_name fname = "") := by
  refine ⟨fun h => ?_, rfl, ?_, fun c cs hd => ?_, fun hd => ?_⟩
  · simp [short_description, h]
  · simp [short_description]
  · simp [readable_name, pyCapitalize, pyReplaceChar, hd]
  · simp [readable_name, pyCapitalize, pyReplaceChar, hd]

/-- C8 witness: the amended claim applied to a non-empty provided name
and to the humanized fallback of a concrete identifier. -/
theorem C8_witness :
    short_description (some "Decline") "do_thing" = "Decline"
    ∧ (readable_name "do_thing").data
        = ('d'.toUpper :: "o_thing".data.map Char.toLower).map
            fun d => if d = '_' then ' ' else d :=
  ⟨( C8_theorem "do_thing" "Decline").1 (by decide),
   ( C8_theorem "do_thing" "Decline").2.2.2.1 'd' "o_thing".data (by decide)⟩

/-! ## Registry lemmas -/

/-- Running the `__init__` scan from any instance state appends exactly
the row-flagged members to the row bucket read through attribute
lookup. -/
theorem init_fold_actions_row (cls : ClassAttrs) (members : List ActionFlags)
    (inst : InstanceAttrs) :
    lookup_attr cls.actions_row
        (members.foldl (init_step cls) inst).actions_row
      = lookup_attr cls.actions_row inst.actions_row
          ++ members.filter fun f => f.is_row := by
  induction members generalizing inst with
  | nil => simp
  | cons f fs ih =>
      rw [List.foldl_cons, ih, List.filter_cons]
      cases hf : f.is_row <;>
        simp [init_step, lookup_attr, hf, List.append_assoc]

/-- List-bucket analogue of `init_fold_actions_row`. -/
theorem init_fold_actions_list (cls : ClassAttrs) (members : List ActionFlags)
    (inst : InstanceAttrs) :
    lookup_attr cls.actions_list
        (members.foldl (init_step cls) inst).actions_list
      = lookup_attr cls.actions_list inst.actions_list
          ++ members.filter fun f => f.is_list := by
  induction members generalizing inst with
  | nil => simp
  | cons f fs ih =>
      rw [List.foldl_cons, ih, List.filter_cons]
      cases hf : f.is_list <;>
        simp [init_step, lookup_attr, hf, List.append_assoc]

/-- Detail-bucket analogue of `init_fold_actions_row`. -/
theorem init_fold_actions_detail (cls : ClassAttrs) (members : List ActionFlags)
    (inst : InstanceAttrs) :
    lookup_attr cls.actions_detail
        (members.foldl (init_step cls) inst).actions_detail
      = lookup_attr cls.actions_detail inst.actions_detail
          ++ members.filter fun f => f.is_detail := by
  induction members generalizing inst with
  | nil => simp
  | cons f fs ih =>
      rw [List.foldl_cons, ih, List.filter_cons]
      cases hf : f.is_detail <;>
        simp [init_step, lookup_attr, hf, List.append_assoc]

/-- With the inherited empty-tuple class attributes, the buckets of a
freshly constructed instance are exactly the flag-filtered member
lists. -/
theorem init_run_buckets (members : List ActionFlags) :
    lookup_attr defaultClassAttrs.actions_row
        (init_run defaultClassAttrs members).actions_row
      = (members.filter fun f => f.is_row)
    ∧ lookup_attr defaultClassAttrs.actions_list
        (init_run defaultClassAttrs members).actions_list
      = (members.filter fun f => f.is_list)
    ∧ lookup_attr defaultClassAttrs.actions_detail
        (init_run defaultClassAttrs members).actions_detail
      = (members.filter fun f => f.is_detail) := by
  refine ⟨?_, ?_, ?_⟩
  · simpa using init_fold_actions_row defaultClassAttrs members
      ⟨Option.none, Option.none, Option.none⟩
  · simpa using init_fold_actions_list defaultClassAttrs members
      ⟨Option.none, Option.none, Option.none⟩
  · simpa using init_fold_actions_detail defaultClassAttrs members
      ⟨Option.none, Option.none, Option.none⟩

/-- In a duplicate-free list, the number of occurrences of `a` in the
`p`-filtered list is 1 when `a` satisfies `p` and is present, else 0. -/
theorem count_filter_nodup {α : Type} [DecidableEq α] (p : α → Bool)
    (l : List α) (hnd : l.Nodup) (a : α) :
    (l.filter p).count a = if p a = true ∧ a ∈ l then 1 else 0 := by
  by_cases hmem : p a = true ∧ a ∈ l
  · rw [if_pos hmem]
    exact List.count_eq_one_of_mem (hnd.filter p)
      (List.mem_filter.mpr ⟨hmem.2, hmem.1⟩)
  · rw [if_neg hmem]
    refine List.count_eq_zero_of_not_mem fun hin => ?_
    have := List.mem_filter.mp hin
    exact hmem ⟨this.2, this.1⟩

/-! ## Claim C2 -/

/-- C2: after construction with the inherited empty class defaults, a
decorated method is in the row bucket iff its row flag is true, in the
list bucket iff its list flag is true, and in the detail bucket iff its
detail flag is true; in particular an action declared with `row=True`
only is in the row bucket and in neither other bucket. -/
theorem C2_theorem (members : List ActionFlags) (a : ActionFlags)
    (ha : a ∈ members) :
    (a ∈ lookup_attr defaultClassAttrs.actions_row
        (init_run defaultClassAttrs members).actions_row ↔ a.is_row = true)
    ∧ (a ∈ lookup_attr defaultClassAttrs.actions_list
        (init_run defaultClassAttrs members).actions_list ↔ a.is_list = true)
    ∧ (a ∈ lookup_attr defaultClassAttrs.actions_detail
        (init_run defaultClassAttrs members).actions_detail ↔
          a.is_detail = true)
    ∧ (a.is_row = true → a.is_list = false → a.is_detail = false →
        a ∈ lookup_attr defaultClassAttrs.actions_row
            (init_run defaultClassAttrs members).actions_row
        ∧ a ∉ lookup_attr defaultClassAttrs.actions_list
            (init_run defaultClassAttrs members).actions_list
        ∧ a ∉ lookup_attr defaultClassAttrs.actions_detail
            (init_run defaultClassAttrs members).actions_detail) := by
  obtain ⟨hr, hl, hd⟩ := init_run_buckets members
  rw [hr, hl, hd]
  refine ⟨?_, ?_, ?_, ?_⟩
  · simp [List.mem_filter, ha]
  · simp [List.mem_filter, ha]
  · simp [List.mem_filter, ha]
  · intro h1 h2 h3
    simp [List.mem_filter, ha, h1, h2, h3]

/-- C2 witness: a concrete class with a row-only action and a
list-and-detail action. -/
theorem C2_witness :
    (⟨"a", true, false, false⟩ : ActionFlags)
        ∈ [(⟨"a", true, false, false⟩ : ActionFlags), ⟨"b", false, true, true⟩]
    ∧ ((⟨"a", true, false, false⟩ : ActionFlags)
        ∈ lookup_attr defaultClassAttrs.actions_row
          (init_run defaultClassAttrs
            [⟨"a", true, false, false⟩, ⟨"b", false, true, true⟩]).actions_row
      ↔ True) :=
  ⟨by decide,
   by
    rw [( C2_theorem [⟨"a", true, false, false⟩, ⟨"b", false, true, true⟩]
      ⟨"a", true, false, false⟩ (by decide)).1]
    simp⟩

/-! ## Claim C10 -/

/-- C10: constructing an instance of a subclass that keeps the inherited
empty-tuple class attributes never mutates the class attributes and
never touches previously constructed instances; the new instance's
buckets (read through attribute lookup) contain each flagged action
exactly once. -/
theorem C10_theorem (members : List ActionFlags) (hnd : members.Nodup)
    (w : AdminWorld) (hcls : w.cls = defaultClassAttrs) (a : ActionFlags) :
    (construct_instance members w).cls = w.cls
    ∧ (construct_instance members w).instances
        = w.instances ++ [init_run w.cls members]
    ∧ (lookup_attr (construct_instance members w).cls.actions_row
          (init_run w.cls members).actions_row).count a
        = (if a.is_row = true ∧ a ∈ members then 1 else 0)
    ∧ (lookup_attr (construct_instance members w).cls.actions_list
          (init_run w.cls members).actions_list).count a
        = (if a.is_list = true ∧ a ∈ members then 1 else 0)
    ∧ (lookup_attr (construct_instance members w).cls.actions_detail
          (init_run w.cls members).actions_detail).count a
        = (if a.is_detail = true ∧ a ∈ members then 1 else 0) := by
  obtain ⟨hr, hl, hd⟩ := init_run_buckets members
  refine ⟨rfl, rfl, ?_, ?_, ?_⟩
  · rw [construct_instance, hcls, hr]
    exact count_filter_nodup _ members hnd a
  · rw [construct_instance, hcls, hl]
    exact count_filter_nodup _ members hnd a
  · rw [construct_instance, hcls, hd]
    exact count_filter_nodup _ members hnd a

/-- C10 witness: a concrete world with one prior instance. -/
theorem C10_witness :
    (construct_instance [⟨"a", true, false, true⟩]
        ⟨defaultClassAttrs, [⟨some [], Option.none, Option.none⟩]⟩).cls
      = defaultClassAttrs
    ∧ (lookup_attr defaultClassAttrs.actions_row
          (init_run defaultClassAttrs [⟨"a", true, false, true⟩]).actions_row).count
        ⟨"a", true, false, true⟩
      = (if (true = true) ∧ (⟨"a", true, false, true⟩ : ActionFlags)
            ∈ [(⟨"a", true, false, true⟩ : ActionFlags)] then 1 else 0) :=
  ⟨( C10_theorem [⟨"a", true, false, true⟩] (by decide)
      ⟨defaultClassAttrs, [⟨some [], Option.none, Option.none⟩]⟩ rfl
      ⟨"a", true, false, true⟩).1,
   ( C10_theorem [⟨"a", true, false, true⟩] (by decide)
      ⟨defaultClassAttrs, [⟨some [], Option.none, Option.none⟩]⟩ rfl
      ⟨"a", true, false, true⟩).2.2.1⟩

/-! ## Claim C5 -/

/-- C5: the visible-action resolver returns the full unfiltered bucket
when no request is bound, or when an object is required
(`check_instance`) and the bound object is absent; otherwise it returns
exactly the sublist of actions whose visibility predicate holds for the
current (view, request, object) context, preserving bucket order. -/
theorem C5_theorem {View Req Obj : Type} (view : View)
    (st : ViewState Req Obj) (actions : List (VisAction View Req Obj))
    (check_instance : Bool) :
    (st.request = Option.none →
        _get_visible_actions view st actions check_instance = actions)
    ∧ (check_instance = true → st.object = Option.none →
        _get_visible_actions view st actions check_instance = actions)
    ∧ (∀ req, st.request = some req →
        (check_instance = false ∨ st.object ≠ Option.none) →
        _get_visible_actions view st actions check_instance
            = actions.filter (fun func => func.visible view req st.object)
          ∧ List.Sublist
              (_get_visible_actions view st actions check_instance) actions
          ∧ ∀ a, a ∈ _get_visible_actions view st actions check_instance
              ↔ a ∈ actions ∧ a.visible view req st.object = true) := by
  refine ⟨fun hreq => ?_, fun hci hobj => ?_, fun req hreq hfilt => ?_⟩
  · simp [_get_visible_actions, hreq]
  · cases hr : st.request with
    | none => simp [_get_visible_actions, hr]
    | some req => simp [_get_visible_actions, hr, hci, hobj]
  · have hcond : (check_instance && st.object.isNone) = false := by
      rcases hfilt with hci | hobj
      · simp [hci]
      · cases ho : st.object with
        | none => exact absurd ho hobj
        | some o => simp [ho]
    have hres : _get_visible_actions view st actions check_instance
        = actions.filter fun func => func.visible view req st.object := by
      simp [_get_visible_actions, hreq, hcond]
    refine ⟨hres, ?_, fun a => ?_⟩
    · rw [hres]; exact List.filter_sublist actions
    · rw [hres]; exact List.mem_filter

/-- C5 witness: one visible and one hidden action under a bound request
and bound object. -/
theorem C5_witness :
    _get_visible_actions () (⟨some 0, some 0⟩ : ViewState Nat Nat)
        [⟨"a", fun _ _ _ => true⟩, ⟨"b", fun _ _ _ => false⟩] true
      = [⟨"a", fun _ _ _ => true⟩] :=
  (( C5_theorem () (⟨some 0, some 0⟩ : ViewState Nat Nat)
      [⟨"a", fun _ _ _ => true⟩, ⟨"b", fun _ _ _ => false⟩] true).2.2 0 rfl
    (Or.inr (by simp))).1

/-! ## Claim C7 -/

/-- C7: `hide_in_prod` returns true iff the production flag is false;
consequently an action whose visibility predicate is `hide_in_prod`,
under a bound request and a bound object, is excluded by the resolver
when the production flag is true and included when it is false. -/
theorem C7_theorem {View Req Obj : Type} (s : Settings) (view : View)
    (req : Req) (o : Obj) (actions : List (VisAction View Req Obj))
    (a : VisAction View Req Obj) (check_instance : Bool)
    (hvis : a.visible = fun _ _ _ => hide_in_prod s) (ha : a ∈ actions) :
    (hide_in_prod s = true ↔ s.is_production = false)
    ∧ (s.is_production = true →
        a ∉ _get_visible_actions view (⟨some req, some o⟩ : ViewState Req Obj)
              actions check_instance)
    ∧ (s.is_production = false →
        a ∈ _get_visible_actions view (⟨some req, some o⟩ : ViewState Req Obj)
              actions check_instance) := by
  refine ⟨?_, fun hprod => ?_, fun hprod => ?_⟩
  · cases h : s.is_production <;> simp [hide_in_prod, h]
  · intro hmem
    have hv : a ∈ actions ∧ a.visible view req (some o) = true := by
      simpa [_get_visible_actions] using hmem
    have hv2 := hv.2
    rw [hvis] at hv2
    simp [hide_in_prod, hprod] at hv2
  · simp only [_get_visible_actions, Option.isNone_some, Bool.and_false,
      Bool.false_eq_true, if_false]
    exact List.mem_filter.mpr ⟨ha, by rw [hvis]; simp [hide_in_prod, hprod]⟩

/-- C7 witness: concrete production-flag settings. -/
theorem C7_witness :
    (⟨"x", fun _ _ _ => hide_in_prod ⟨true⟩⟩ : VisAction Unit Nat Nat)
      ∉ _get_visible_actions () (⟨some 0, some 0⟩ : ViewState Nat Nat)
          [⟨"x", fun _ _ _ => hide_in_prod ⟨true⟩⟩] true
    ∧ (⟨"x", fun _ _ _ => hide_in_prod ⟨false⟩⟩ : VisAction Unit Nat Nat)
      ∈ _get_visible_actions () (⟨some 0, some 0⟩ : ViewState Nat Nat)
          [⟨"x", fun _ _ _ => hide_in_prod ⟨false⟩⟩] true :=
  ⟨( C7_theorem ⟨true⟩ () 0 0 [⟨"x", fun _ _ _ => hide_in_prod ⟨true⟩⟩]
      ⟨"x", fun _ _ _ => hide_in_prod ⟨true⟩⟩ true rfl (by simp)).2.1 rfl,
   ( C7_theorem ⟨false⟩ () 0 0 [⟨"x", fun _ _ _ => hide_in_prod ⟨false⟩⟩]
      ⟨"x", fun _ _ _ => hide_in_prod ⟨false⟩⟩ true rfl (by simp)).2.2 rfl⟩

/-! ## Claim C4 -/

/-- C4: in the confirmation-form flow, a request without the `apply`
marker renders the unbound form and invokes the callback zero times; a
request with the marker and invalid form data re-renders the bound form
(which carries its errors) and invokes the callback zero times; a
request with the marker and valid form data invokes the callback
exactly once with (request, validated form, target object) and returns
its value unchanged. -/
theorem C4_theorem {Val Form Req Obj Resp : Type} (form_cls : FormCls Val Form)
    (form_valid_callback : Req → Form → Obj → Resp) (request : Req)
    (post : PostData Val) (obj : Obj) :
    (post.hasKey "apply" = false →
        _confirmation_view form_cls form_valid_callback request post obj
          = (.rendered form_cls.unbound, []))
    ∧ (post.hasKey "apply" = true →
        form_cls.is_valid (form_cls.bind post) = false →
        _confirmation_view form_cls form_valid_callback request post obj
          = (.rendered (form_cls.bind post), []))
    ∧ (post.hasKey "apply" = true →
        form_cls.is_valid (form_cls.bind post) = true →
        _confirmation_view form_cls form_valid_callback request post obj
          = (.callbackResult
              (form_valid_callback request (form_cls.bind post) obj),
             [(request, form_cls.bind post, obj)])) := by
  refine ⟨fun hk => ?_, fun hk hv => ?_, fun hk hv => ?_⟩
  · simp [_confirmation_view, hk]
  · simp [_confirmation_view, hk, hv]
  · simp [_confirmation_view, hk, hv]

/-- C4 witness: a concrete form over string data, exercised in all
three branches. -/
theorem C4_witness :
    _confirmation_view
        (⟨fun p => p.hasKey "ok", false, fun b => b⟩ :
          FormCls String Bool)
        (fun (_ : Nat) (form : Bool) (o : Nat) => (form, o)) 1
        (⟨[("apply", "1"), ("ok", "1")]⟩ : PostData String) 9
      = (.callbackResult (true, 9), [(1, true, 9)])
    ∧ _confirmation_view
        (⟨fun p => p.hasKey "ok", false, fun b => b⟩ :
          FormCls String Bool)
        (fun (_ : Nat) (form : Bool) (o : Nat) => (form, o)) 1
        (⟨[("apply", "1")]⟩ : PostData String) 9
      = (.rendered false, [])
    ∧ _confirmation_view
        (⟨fun p => p.hasKey "ok", false, fun b => b⟩ :
          FormCls String Bool)
        (fun (_ : Nat) (form : Bool) (o : Nat) => (form, o)) 1
        (⟨[("other", "1")]⟩ : PostData String) 9
      = (.rendered false, []) :=
  ⟨( C4_theorem ⟨fun p => p.hasKey "ok", false, fun b => b⟩
      (fun _ form o => (form, o)) 1 ⟨[("apply", "1"), ("ok", "1")]⟩ 9).2.2
      (by decide) (by decide),
   ( C4_theorem ⟨fun p => p.hasKey "ok", false, fun b => b⟩
      (fun _ form o => (form, o)) 1 ⟨[("apply", "1")]⟩ 9).2.1
      (by decide) (by decide),
   ( C4_theorem ⟨fun p => p.hasKey "ok", false, fun b => b⟩
      (fun _ form o => (form, o)) 1 ⟨[("other", "1")]⟩ 9).1
      (by decide)⟩

/-! ## URL lemmas -/

/-- Route names are injective in the method name (for a fixed app label
and model name). -/
theorem url_name_inj (app_label model_name m1 m2 : String)
    (h : _get_url_name app_label model_name m1
          = _get_url_name app_label model_name m2) :
    m1 = m2 := by
  have hd := congrArg String.data h
  simp only [_get_url_name, String.data_append, List.append_assoc] at hd
  exact String.ext (List.append_cancel_left (List.append_cancel_left
    (List.append_cancel_left (List.append_cancel_left hd))))

/-- A character other than `<` cannot start a converter match, so the
substitution passes it through. -/
theorem substAux_skip (rep cs : List Char) (c : Char) (k : Nat)
    (hc : ('<' == c) = false) :
    substAux pkConverter rep (k + 1) (c :: cs)
      = c :: substAux pkConverter rep k cs := by
  have hif : pkConverter.isPrefixOf (c :: cs) = false := by
    simp [pkConverter, List.isPrefixOf, hc]
  simp [substAux, hif]

/-- The substitution passes an `<`-free prefix through unchanged. -/
theorem substAux_no_lt (rep rest : List Char) (pre : List Char)
    (h : ∀ c ∈ pre, c ≠ '<') (k : Nat) :
    substAux pkConverter rep (pre.length + k) (pre ++ rest)
      = pre ++ substAux pkConverter rep k rest := by
  induction pre with
  | nil => simp
  | cons c pre ih =>
      have hc : ('<' == c) = false := by
        have hne := h c (List.mem_cons_self c pre)
        simp [beq_iff_eq]
        exact fun h2 => hne h2.symm
      have hlen : (c :: pre).length + k = (pre.length + k) + 1 := by
        simp [List.length_cons]
        omega
      rw [List.cons_append, hlen, substAux_skip rep (pre ++ rest) c _ hc,
        ih (fun d hd => h d (List.mem_cons_of_mem c hd))]
      rfl

/-- The substitution rewrites the trailing `/<int:pk>/` segment of a
generated detail path to `/<args>/`. -/
theorem substAux_tail (rep : List Char) :
    substAux pkConverter rep 10 ('/' :: (pkConverter ++ ['/']))
      = '/' :: (rep ++ ['/']) := rfl

/-- Reversing the generated detail route of a method whose name is free
of `<` (true of every Python identifier) yields
`<method_name>/<id>/`. -/
theorem reverse_url_detail (app_label model_name m : String) (pk : Nat)
    (h : ∀ c ∈ m.data, c ≠ '<') :
    reverse_url (make_url app_label model_name true m) pk
      = m ++ "/" ++ toString pk ++ "/" := by
  have hdata : (m ++ "/<int:pk>/").data
      = m.data ++ ('/' :: (pkConverter ++ ['/'])) := by
    rw [String.data_append]
    congr 1
  have hlen : (m ++ "/<int:pk>/").data.length = m.data.length + 10 := by
    rw [hdata]
    simp [pkConverter]
  apply String.ext
  show substAux pkConverter (toString pk).data (m ++ "/<int:pk>/").data.length
      (m ++ "/<int:pk>/").data = _
  rw [hlen, hdata, substAux_no_lt _ _ _ h 10, substAux_tail]
  have hs : "/".data = ['/'] := rfl
  simp [String.data_append, hs, List.append_assoc]

/-- The generated routes for a bucket count, under the name of method
`m`, exactly the occurrences of `m` in the bucket. -/
theorem countP_generate_urls (app_label model_name m : String)
    (names : List String) (d : Bool) :
    (_generate_urls_for app_label model_name names d).countP
        (fun p => p.url_name == _get_url_name app_label model_name m)
      = names.count m := by
  rw [_generate_urls_for, List.countP_map]
  refine List.countP_congr fun m' _ => ?_
  simp only [Function.comp, make_url, beq_iff_eq]
  constructor
  · exact fun hh => url_name_inj app_label model_name m' m hh
  · exact fun hh => by rw [hh]

/-! ## Claim C3 -/

/-- C3 counterexample: the route generated for a list-bucket action has
path `<method_name>` with no trailing slash, not `<method_name>/`. -/
theorem C3_counterexample :
    (_generate_urls_for "app" "mod" ["fill"] false).map UrlPattern.url_path
        = ["fill"]
    ∧ ¬ (_generate_urls_for "app" "mod" ["fill"] false).map UrlPattern.url_path
        = ["fill/"] := by
  decide

/-- C3 (amended): route generation produces exactly one route for a
method in both the row and detail buckets (the two buckets are merged
through a set union before routing); that route's path template is
`<method_name>/<int:pk>/`, and reversing it with a numeric object id
yields `<method_name>/<id>/`; routes for list-bucket actions have path
`<method_name>` (no trailing slash, no object id); and every generated
route is named `<app_label>_<model_name>_<method_name>`. -/
theorem C3_theorem (app_label model_name m : String) (pk : Nat)
    (actions_row actions_detail actions_list : List String)
    (hrow : m ∈ actions_row) (_hdet : m ∈ actions_detail)
    (hlst : m ∉ actions_list) (hlt : ∀ c ∈ m.data, c ≠ '<') :
    (get_urls app_label model_name actions_row actions_detail
        actions_list).countP
        (fun p => p.url_name == _get_url_name app_label model_name m) = 1
    ∧ (∀ p ∈ get_urls app_label model_name actions_row actions_detail
          actions_list,
        p.url_name = _get_url_name app_label model_name m →
          p.url_path = m ++ "/<int:pk>/")
    ∧ reverse_url (make_url app_label model_name true m) pk
        = m ++ "/" ++ toString pk ++ "/"
    ∧ (∀ p ∈ get_urls app_label model_name actions_row actions_detail
          actions_list,
        ∃ m', p.url_name = _get_url_name app_label model_name m')
    ∧ (∀ p ∈ _generate_urls_for app_label model_name actions_list false,
        ∃ m' ∈ actions_list,
          p.url_path = m' ∧ p.url_name = _get_url_name app_label model_name m') := by
  refine ⟨?_, ?_, reverse_url_detail app_label model_name m pk hlt, ?_, ?_⟩
  · rw [get_urls, List.countP_append, countP_generate_urls,
      countP_generate_urls]
    rw [List.count_eq_one_of_mem ((actions_row ++ actions_detail).nodup_dedup)
      (List.mem_dedup.mpr (List.mem_append.mpr (Or.inl hrow)))]
    rw [List.count_eq_zero_of_not_mem hlst]
  · intro p hp hname
    rcases List.mem_append.mp hp with hp | hp
    · obtain ⟨m', _, hpe⟩ := List.mem_map.mp hp
      have hmm : m' = m := url_name_inj app_label model_name m' m (by
        rw [← hname, ← hpe]; rfl)
      rw [← hpe]
      simp [make_url, hmm]
    · obtain ⟨m', hm', hpe⟩ := List.mem_map.mp hp
      have hmm : m' = m := url_name_inj app_label model_name m' m (by
        rw [← hname, ← hpe]; rfl)
      exact absurd (hmm ▸ hm') hlst
  · intro p hp
    rcases List.mem_append.mp hp with hp | hp <;>
      obtain ⟨m', _, hpe⟩ := List.mem_map.mp hp <;>
      exact ⟨m', by rw [← hpe]; rfl⟩
  · intro p hp
    obtain ⟨m', hm', hpe⟩ := List.mem_map.mp hp
    exact ⟨m', hm', by rw [← hpe]; rfl, by rw [← hpe]; rfl⟩

/-- C3 witness: a method in both row and detail buckets of a concrete
admin, reversed at object id 7. -/
theorem C3_witness :
    (get_urls "app" "mod" ["cancel"] ["cancel", "hide"] ["fill"]).countP
        (fun p => p.url_name == _get_url_name "app" "mod" "cancel") = 1
    ∧ reverse_url (make_url "app" "mod" true "cancel") 7 = "cancel/7/" :=
  ⟨( C3_theorem "app" "mod" "cancel" 7 ["cancel"] ["cancel", "hide"] ["fill"]
      (by decide) (by decide) (by decide) (by decide)).1,
   ( C3_theorem "app" "mod" "cancel" 7 ["cancel"] ["cancel", "hide"] ["fill"]
      (by decide) (by decide) (by decide) (by decide)).2.2.1⟩

end AdminActions
